import Mathlib

/-!
Shallow embedding of the session and access-control core of the
budget-management backend (TypeScript/Express/Prisma), together with proofs
of the documented properties.

Conventions of the embedding:
* time is a natural number of milliseconds since the epoch, passed explicitly
  to every operation that the source derives from `Date.now()` / `new Date()`;
* the Prisma store is a record of lists, threaded explicitly through each
  operation; `findUnique`/`findFirst` become `List.find?`, `deleteMany`
  becomes `List.filter`, `create` appends;
* JWTs are records carrying their claims and their issuance instant; signing
  is deterministic per (claims, secret, clock), so a token is identified with
  its claims plus the instant it was signed — two signings of the same claims
  at the same instant yield the identical token string, at different instants
  different ones;
* a thrown `Error(msg)` becomes `Except.error msg`; the Express controllers
  and middlewares, which translate a message to an HTTP status, return
  `Except (String × Nat) _` carrying `(message, status)`.
-/

deriving instance DecidableEq for Except

namespace Budget

/-- Refresh token lifetime, 7 days in milliseconds (auth.service.ts). -/
def refreshTTLms : Nat := 7 * 24 * 60 * 60 * 1000

/-- Access token lifetime, 15 minutes in milliseconds (jwt.ts, expiresIn 15m). -/
def accessTTLms : Nat := 15 * 60 * 1000

/-- A signed refresh token. jwt.sign is deterministic per (claims, secret,
clock): the signed string is a pure function of the payload `{userId,
email}` and the signing instant, which fixes the embedded `iat` and
`exp = iat + 7 days`. Token equality is therefore equality of the claims
plus the issuance instant — two signings of the same claims at the same
instant yield the identical token string. -/
structure RTok where
  userId : Nat
  email : String
  iat : Nat
deriving DecidableEq

/-- The expiry a refresh token carries: its issuance instant plus 7 days. -/
def RTok.exp (t : RTok) : Nat := t.iat + refreshTTLms

/-- A signed access token with its claims `{userId, email}` and embedded
expiry (jwt.ts `generateAccessToken`). -/
structure ATok where
  userId : Nat
  email : String
  exp : Nat
deriving DecidableEq

/-- A row of the `refreshToken` Prisma table. -/
structure Session where
  token : RTok
  userId : Nat
  expiresAt : Nat
deriving DecidableEq

/-- A row of the `user` Prisma table (the fields the auth flows touch). -/
structure User where
  id : Nat
  email : String
  password : String
  name : String
deriving DecidableEq

/-- The Prisma store plus the `nextUid` counter modelling fresh ids for
created users. -/
structure DB where
  users : List User
  sessions : List Session
  nextUid : Nat
deriving DecidableEq

/-- The empty database. -/
def emptyDB : DB := ⟨[], [], 0⟩

/-- Model of bcrypt hashing (utils/password.ts): an injective tagging of the
password; `comparePassword` succeeds exactly on the hashed password. -/
def hashPassword (p : String) : String := "bcrypt$" ++ p

/-- Model of bcrypt compare (utils/password.ts). -/
def comparePassword (p h : String) : Bool := decide (h = hashPassword p)

/-- jwt.ts `generateAccessToken`: sign `{userId, email}` with a 15 minute
expiry. Access tokens are never persisted, so no counter is consumed. -/
def generateAccessToken (userId : Nat) (email : String) (now : Nat) : ATok :=
  ⟨userId, email, now + accessTTLms⟩

/-- jwt.ts `generateRefreshToken`: sign `{userId, email}` with a 7 day
expiry — stateless and deterministic, a pure function of the claims and
the clock. -/
def generateRefreshToken (userId : Nat) (email : String) (now : Nat) : RTok :=
  ⟨userId, email, now⟩

/-- jwt.ts `verifyRefreshToken` via jsonwebtoken: a token of this system
verifies while its embedded expiry lies in the future. -/
def verifyRefreshToken (t : RTok) (now : Nat) : Bool := decide (now < t.exp)

/-- jwt.ts `verifyAccessToken` via jsonwebtoken: a token of this system
verifies while its embedded expiry lies in the future. -/
def verifyAccessTokenOk (t : ATok) (now : Nat) : Bool := decide (now < t.exp)

/-- What the auth service returns to the controller: the user id plus the
freshly issued pair of tokens. -/
structure AuthResult where
  userId : Nat
  accessToken : ATok
  refreshToken : RTok
deriving DecidableEq

/-- auth.service.ts `registerUser`: reject a duplicate email, create the
user, issue both tokens, persist the refresh token row. -/
def registerUser (email pw nm : String) (now : Nat) (db : DB) :
    Except String (AuthResult × DB) :=
  if db.users.any (fun u => decide (u.email = email)) then
    .error "User with this email already exists"
  else
    let u : User := ⟨db.nextUid, email, hashPassword pw, nm⟩
    let db1 : DB := { db with users := db.users ++ [u], nextUid := db.nextUid + 1 }
    let a := generateAccessToken u.id u.email now
    let r := generateRefreshToken u.id u.email now
    .ok (⟨u.id, a, r⟩,
      { db1 with sessions := db1.sessions ++ [⟨r, u.id, now + refreshTTLms⟩] })

/-- auth.service.ts `loginUser`: look the user up by email, compare the
password, delete every refresh token row of the user (single session
policy), issue fresh tokens, persist the new refresh token row. -/
def loginUser (email pw : String) (now : Nat) (db : DB) :
    Except String (AuthResult × DB) :=
  match db.users.find? (fun u => decide (u.email = email)) with
  | none => .error "Invalid email or password"
  | some u =>
    if comparePassword pw u.password then
      let db1 : DB := { db with sessions := db.sessions.filter (fun s => decide (s.userId ≠ u.id)) }
      let a := generateAccessToken u.id u.email now
      let r := generateRefreshToken u.id u.email now
      .ok (⟨u.id, a, r⟩,
        { db1 with sessions := db1.sessions ++ [⟨r, u.id, now + refreshTTLms⟩] })
    else .error "Invalid email or password"

/-- Health of the session store during one call, modelling Prisma
infrastructure failures: `lookupDown` makes `findUnique` throw,
`txnDown` makes the `$transaction` throw. -/
inductive StoreHealth where
  | healthy
  | lookupDown
  | txnDown
deriving DecidableEq

/-- auth.service.ts `refreshUserToken`, with the store health made explicit.
The whole body sits in a `try/catch` whose handler rethrows the one generic
`Error("Invalid or expired refresh token")`, so every failure inside —
signature, missing row, expired row, missing joined user, store exception —
collapses to that one error. The rotation itself is the Prisma
`$transaction([delete, create])`: the delete throws when the row is already
gone, aborting the whole transaction, which is modelled by the `any` guard. -/
def refreshUserTokenW (h : StoreHealth) (t : RTok) (now : Nat) (db : DB) :
    Except String (AuthResult × DB) :=
  if ¬ verifyRefreshToken t now then .error "Invalid or expired refresh token"
  else if h = .lookupDown then .error "Invalid or expired refresh token"
  else
    match db.sessions.find? (fun s => decide (s.token = t)) with
    | none => .error "Invalid or expired refresh token"
    | some row =>
      if row.expiresAt < now then .error "Invalid or expired refresh token"
      else
        match db.users.find? (fun u => decide (u.id = row.userId)) with
        | none => .error "Invalid or expired refresh token"
        | some u =>
          let a := generateAccessToken u.id u.email now
          let r := generateRefreshToken u.id u.email now
          if h = .txnDown then .error "Invalid or expired refresh token"
          else if db.sessions.any (fun s => decide (s.token = t)) then
            .ok (⟨u.id, a, r⟩,
              { db with sessions :=
                  (db.sessions.filter (fun s => decide (s.token ≠ t))) ++
                    [⟨r, u.id, now + refreshTTLms⟩] })
          else .error "Invalid or expired refresh token"

/-- auth.service.ts `refreshUserToken` with a healthy store. -/
def refreshUserToken : RTok → Nat → DB → Except String (AuthResult × DB) :=
  refreshUserTokenW .healthy

/-- auth.service.ts `logoutUser`: delete every refresh token row of the
user; nothing else changes, and nothing can fail. -/
def logoutUser (userId : Nat) (db : DB) : DB :=
  { db with sessions := db.sessions.filter (fun s => decide (s.userId ≠ userId)) }

/-- auth.controller.ts `refreshToken`: any error thrown by the service is
answered with status 401. -/
def refreshTokenController (h : StoreHealth) (t : RTok) (now : Nat) (db : DB) :
    Except (String × Nat) (AuthResult × DB) :=
  match refreshUserTokenW h t now db with
  | .ok r => .ok r
  | .error m => .error (m, 401)

/-- auth.middleware.ts `authenticateToken` (the session-checking revision):
verify the access token, then require some unexpired refresh token row of
the bearer; answer 401 otherwise. -/
def authenticateToken (t : ATok) (now : Nat) (db : DB) :
    Except (String × Nat) ATok :=
  if ¬ verifyAccessTokenOk t now then .error ("Invalid or expired access token", 401)
  else
    match db.sessions.find? (fun s => decide (s.userId = t.userId) && decide (now < s.expiresAt)) with
    | none => .error ("Session expired. Please login again.", 401)
    | some _ => .ok t

/-- Cache entry TTL, 5 minutes in milliseconds (utils/cache.ts). -/
def cacheTTLms : Nat := 5 * 60 * 1000

/-- One entry of the in-memory `TokenCache` map (utils/cache.ts). -/
structure CacheItem where
  value : Bool
  expiry : Nat
deriving DecidableEq

/-- The `TokenCache` map, keyed by strings such as `user:<id>:active`. -/
abbrev Cache := List (String × CacheItem)

/-- utils/cache.ts `TokenCache.set`: overwrite with a fresh TTL. -/
def cacheSet (c : Cache) (key : String) (v : Bool) (now : Nat) : Cache :=
  (c.filter (fun p => decide (p.1 ≠ key))) ++ [(key, ⟨v, now + cacheTTLms⟩)]

/-- utils/cache.ts `TokenCache.get`: lazy expiry — an entry older than its
TTL is deleted and reported absent. Returns the read result and the cache
after the read. -/
def cacheGet (c : Cache) (key : String) (now : Nat) : Option Bool × Cache :=
  match c.find? (fun p => decide (p.1 = key)) with
  | none => (none, c)
  | some it =>
    if it.2.expiry < now then (none, c.filter (fun p => decide (p.1 ≠ key)))
    else (some it.2.value, c)

/-- utils/cache.ts `TokenCache.delete`. -/
def cacheDelete (c : Cache) (key : String) : Cache :=
  c.filter (fun p => decide (p.1 ≠ key))

/-- The session-liveness question as the middleware actually settles it:
query the store for an unexpired refresh token row of the user. The
`tokenCache` singleton of utils/cache.ts is passed through untouched,
because no revision of the middleware (nor any other module) ever imports
it — the cache is written and read nowhere. -/
def checkSessionLiveCode (userId : Nat) (now : Nat) (db : DB) (c : Cache) :
    Bool × Cache :=
  ((db.sessions.find? (fun s => decide (s.userId = userId) && decide (now < s.expiresAt))).isSome, c)

/-- Specification-side definition, for the refinement comparison only,
following the words of the spec for `CheckSessionLive(userId)`: read the
cache entry `user:<id>:active`; on a miss query the store for a non-expired
row, write the boolean back with a fresh TTL, return it. -/
def checkSessionLiveSpec (userId : Nat) (now : Nat) (db : DB) (c : Cache) :
    Bool × Cache :=
  let key := "user:" ++ toString userId ++ ":active"
  match cacheGet c key now with
  | (some b, c1) => (b, c1)
  | (none, c1) =>
    let b := db.sessions.any (fun s => decide (s.userId = userId) && decide (now < s.expiresAt))
    (b, cacheSet c1 key b now)

/-- auth.middleware.ts `authenticateToken` with the `tokenCache` state
threaded alongside: the middleware neither reads nor writes it. -/
def authenticateTokenC (t : ATok) (now : Nat) (db : DB) (c : Cache) :
    Except (String × Nat) ATok × Cache :=
  (authenticateToken t now db, c)

/-- A row of the `expense` Prisma table, restricted to the fields the
ownership and soft-delete logic inspects. -/
structure Expense where
  id : Nat
  userId : Nat
  isDeleted : Bool
deriving DecidableEq

/-- ownership.middleware.ts `checkResourceOwnership({resourceType:
"expense"})`: a missing or soft-deleted expense answers 404 `Expense not
found`; an expense of another user answers 403 `Access denied`. -/
def checkExpenseOwnership (callerId rid : Nat) (exps : List Expense) :
    Except (String × Nat) Unit :=
  match exps.find? (fun e => decide (e.id = rid)) with
  | none => .error ("Expense not found", 404)
  | some e =>
    if e.isDeleted then .error ("Expense not found", 404)
    else if decide (e.userId ≠ callerId) then
      .error ("Access denied. You can only access your own resources.", 403)
    else .ok ()

/-- expense.service.ts `getExpenseById`: `findFirst` filtered on id, owner
and `isDeleted: false`; a miss throws `Expense not found`. -/
def getExpenseById (userId rid : Nat) (exps : List Expense) :
    Except String Expense :=
  match exps.find? (fun e => decide (e.id = rid) && decide (e.userId = userId) && !e.isDeleted) with
  | none => .error "Expense not found"
  | some e => .ok e

/-- expense.service.ts `updateExpense`: the existence check is `findFirst`
filtered on id, owner and `isDeleted: false`. The update payload only
touches fields (amount, category, description, date) outside this model,
so the surviving rows are returned unchanged. -/
def updateExpense (userId rid : Nat) (exps : List Expense) :
    Except String (List Expense) :=
  match exps.find? (fun e => decide (e.id = rid) && decide (e.userId = userId) && !e.isDeleted) with
  | none => .error "Expense not found"
  | some _ => .ok exps

/-- expense.service.ts `deleteExpense`: the existence check is `findFirst`
filtered on id and owner only — it does NOT filter on `isDeleted` — then
the row is soft-deleted in place. -/
def deleteExpense (userId rid : Nat) (exps : List Expense) :
    Except String (List Expense) :=
  match exps.find? (fun e => decide (e.id = rid) && decide (e.userId = userId)) with
  | none => .error "Expense not found"
  | some _ => .ok (exps.map (fun e => if e.id = rid then { e with isDeleted := true } else e))

/-- Route `GET /api/expenses/:id` (expense.routes.ts): `checkExpenseOwnership`
runs first and answers its own status; a service error is answered 404 by
`getExpenseByIdController`. -/
def getExpenseRoute (callerId rid : Nat) (exps : List Expense) :
    Except (String × Nat) Expense :=
  match checkExpenseOwnership callerId rid exps with
  | .error e => .error e
  | .ok _ =>
    match getExpenseById callerId rid exps with
    | .error m => .error (m, 404)
    | .ok e => .ok e

/-- Route `PUT /api/expenses/:id` (expense.routes.ts): ownership middleware
first; a service error is answered 400 by `updateExpenseController`. -/
def updateExpenseRoute (callerId rid : Nat) (exps : List Expense) :
    Except (String × Nat) (List Expense) :=
  match checkExpenseOwnership callerId rid exps with
  | .error e => .error e
  | .ok _ =>
    match updateExpense callerId rid exps with
    | .error m => .error (m, 400)
    | .ok r => .ok r

/-- Route `DELETE /api/expenses/:id` (expense.routes.ts): ownership
middleware first; a service error is answered 400 by
`deleteExpenseController`. -/
def deleteExpenseRoute (callerId rid : Nat) (exps : List Expense) :
    Except (String × Nat) (List Expense) :=
  match checkExpenseOwnership callerId rid exps with
  | .error e => .error e
  | .ok _ =>
    match deleteExpense callerId rid exps with
    | .error m => .error (m, 400)
    | .ok r => .ok r

/-- Configuration of one `RateLimiter` (rateLimiter.ts). -/
structure RLOptions where
  windowMs : Nat
  max : Nat
deriving DecidableEq

/-- One entry of the `requests` map of a `RateLimiter`. -/
structure RLData where
  count : Nat
  resetTime : Nat
deriving DecidableEq

/-- The `requests` map of a `RateLimiter`, keyed by the caller key. -/
abbrev RLState := List (String × RLData)

/-- What one pass through `RateLimiter.middleware` answers: acceptance
carries the `X-RateLimit-Remaining` quota and the `X-RateLimit-Reset`
seconds; rejection (429) carries the `X-RateLimit-Reset` seconds until the
window resets. -/
inductive RLOutcome where
  | accepted (remaining : Nat) (reset : Nat)
  | rejected (retryAfter : Nat)
deriving DecidableEq

/-- JS `Math.ceil(ms / 1000)` on a nonnegative millisecond count. -/
def ceilSeconds (ms : Nat) : Nat := (ms + 999) / 1000

/-- Read of the `requests` map. -/
def rlLookup (st : RLState) (key : String) : Option RLData :=
  (st.find? (fun p => decide (p.1 = key))).map Prod.snd

/-- Overwrite of the `requests` map. -/
def rlSet (st : RLState) (key : String) (d : RLData) : RLState :=
  (st.filter (fun p => decide (p.1 ≠ key))) ++ [(key, d)]

/-- rateLimiter.ts `RateLimiter.middleware`, one request: reset the entry
when the window has elapsed (`now > resetTime`), increment the counter,
store it back, then reject iff `count > max`. -/
def rlStep (o : RLOptions) (key : String) (now : Nat) (st : RLState) :
    RLOutcome × RLState :=
  let d0 : RLData :=
    match rlLookup st key with
    | some d => if d.resetTime < now then ⟨0, now + o.windowMs⟩ else d
    | none => ⟨0, now + o.windowMs⟩
  let d1 : RLData := ⟨d0.count + 1, d0.resetTime⟩
  let st1 := rlSet st key d1
  if o.max < d1.count then
    (.rejected (ceilSeconds (d1.resetTime - now)), st1)
  else
    (.accepted (o.max - d1.count) (ceilSeconds (d1.resetTime - now)), st1)

/-- A sequence of requests from one key at the given instants. -/
def rlRun (o : RLOptions) (key : String) (ts : List Nat) (st : RLState) :
    List RLOutcome × RLState :=
  match ts with
  | [] => ([], st)
  | t :: rest =>
    let r1 := rlStep o key t st
    let rs := rlRun o key rest r1.2
    (r1.1 :: rs.1, rs.2)

/-- Outcome of one in-flight refresh call, as its caller sees it. -/
inductive RefreshOutcome where
  | ok (t : RTok)
  | failed (msg : String)
deriving DecidableEq

/-- Control state of one in-flight `refreshUserToken` call. The call
suspends only at store operations (spec §5), so it advances in two atomic
phases: phase 0 performs the in-memory JWT verification and the
`findUnique` lookup (recording the row it saw), phase 1 re-checks the row,
joins the user, signs the new tokens in memory and runs the
`$transaction([delete, create])`; phase 2 is done, with `outcome` set. -/
structure RCall where
  phase : Nat
  found : Option Session
  outcome : Option RefreshOutcome
deriving DecidableEq

/-- A refresh call that has not started. -/
def rcInit : RCall := ⟨0, none, none⟩

/-- One atomic step of an in-flight `refreshUserToken t` call against the
shared store, mirroring `refreshUserTokenW .healthy` cut at its two store
suspension points. The transaction applies only when the delete still finds
the row (`any` guard); a delete of a row already rotated away throws inside
the transaction, which aborts it, and the catch-all answers the generic
error. -/
def rcStep (t : RTok) (now : Nat) (db : DB) (c : RCall) : DB × RCall :=
  match c.phase with
  | 0 =>
    if ¬ verifyRefreshToken t now then
      (db, ⟨2, none, some (.failed "Invalid or expired refresh token")⟩)
    else
      (db, ⟨1, db.sessions.find? (fun s => decide (s.token = t)), none⟩)
  | 1 =>
    match c.found with
    | none => (db, ⟨2, none, some (.failed "Invalid or expired refresh token")⟩)
    | some row =>
      if row.expiresAt < now then
        (db, ⟨2, c.found, some (.failed "Invalid or expired refresh token")⟩)
      else
        match db.users.find? (fun u => decide (u.id = row.userId)) with
        | none => (db, ⟨2, c.found, some (.failed "Invalid or expired refresh token")⟩)
        | some u =>
          if db.sessions.any (fun s => decide (s.token = t)) then
            ({ db with
                sessions := (db.sessions.filter (fun s => decide (s.token ≠ t))) ++
                  [⟨generateRefreshToken u.id u.email now, u.id, now + refreshTTLms⟩] },
             ⟨2, c.found, some (.ok (generateRefreshToken u.id u.email now))⟩)
          else (db, ⟨2, c.found, some (.failed "Invalid or expired refresh token")⟩)
  | _ => (db, c)

/-- Run a schedule over two concurrent refresh calls presenting the same
token `t`: `true` advances call A by one atomic step, `false` advances
call B. -/
def rcRun (t : RTok) (now : Nat) : List Bool → DB × RCall × RCall → DB × RCall × RCall
  | [], s => s
  | b :: bs, s =>
    if b then
      let r := rcStep t now s.1 s.2.1
      rcRun t now bs (r.1, r.2, s.2.2)
    else
      let r := rcStep t now s.1 s.2.2
      rcRun t now bs (r.1, s.2.1, r.2)

/-- Closed form of the outcomes `rlRun` produces while the window entry of
the key stays at reset instant `R` with running count `c`: the i-th request
is rejected exactly when the incremented count `c + i + 1` exceeds the
maximum (proof helper for the rate-limiter claims). -/
def rlExpected (M c R : Nat) : List Nat → List RLOutcome
  | [] => []
  | t :: ts =>
    (if M < c + 1 then .rejected (ceilSeconds (R - t))
     else .accepted (M - (c + 1)) (ceilSeconds (R - t))) :: rlExpected M (c + 1) R ts

/-- The pair of caller-visible outcomes of two concurrent refresh calls
presenting the same token `t`, after running `sched` from the initial
store `db`. -/
def rcOutcomes (t : RTok) (now : Nat) (sched : List Bool) (db : DB) :
    Option RefreshOutcome × Option RefreshOutcome :=
  ((rcRun t now sched (db, rcInit, rcInit)).2.1.outcome,
   (rcRun t now sched (db, rcInit, rcInit)).2.2.outcome)

/-! Theorems about the embedded operations, one per documented claim. -/

/-- C4 counterexample: the liveness check is claimed to read the cache
entry first and to write the result back on a miss. In fact a fresh cache
entry `user:1:active ↦ true` makes the spec procedure answer `true`, while
the code queries the empty store and answers `false`; and on an empty
cache the spec procedure writes an entry back while the code leaves the
cache empty. -/
theorem checkSessionLive_cache_first_cex :
    (checkSessionLiveSpec 1 0 emptyDB [("user:1:active", ⟨true, 100⟩)]).1 = true ∧
    (checkSessionLiveCode 1 0 emptyDB [("user:1:active", ⟨true, 100⟩)]).1 = false ∧
    (checkSessionLiveSpec 1 0 emptyDB []).2 ≠ [] ∧
    (checkSessionLiveCode 1 0 emptyDB []).2 = [] := by
  decide

/-- C4 (amended): for every request carrying an unexpired access token, the
session-liveness check queries the session store for a non-expired session
row on every request; the Session Validity Cache is neither consulted nor
updated — the middleware outcome is independent of the cache contents and
the cache passes through unchanged. -/
theorem authenticate_liveness_store_only (t : ATok) (now : Nat) (db : DB)
    (c c2 : Cache) (hexp : now < t.exp) :
    (authenticateTokenC t now db c).2 = c ∧
    (authenticateTokenC t now db c).1 = (authenticateTokenC t now db c2).1 ∧
    ((authenticateTokenC t now db c).1 = .ok t ↔
      (db.sessions.find? (fun s => decide (s.userId = t.userId) && decide (now < s.expiresAt))).isSome) := by
  have hv : verifyAccessTokenOk t now = true := by
    simp [verifyAccessTokenOk, hexp]
  refine ⟨rfl, rfl, ?_⟩
  cases hf : db.sessions.find? (fun s => decide (s.userId = t.userId) && decide (now < s.expiresAt)) with
  | none => simp [authenticateTokenC, authenticateToken, hv, hf]
  | some s => simp [authenticateTokenC, authenticateToken, hv, hf]

/-- C4 amended witness at a concrete input. -/
theorem authenticate_liveness_store_only_witness :
    (0 : Nat) < 10 ∧
    ((authenticateTokenC ⟨1, "a@x.com", 10⟩ 0 emptyDB []).2 = [] ∧
     (authenticateTokenC ⟨1, "a@x.com", 10⟩ 0 emptyDB []).1 =
       (authenticateTokenC ⟨1, "a@x.com", 10⟩ 0 emptyDB [("k", ⟨true, 5⟩)]).1 ∧
     ((authenticateTokenC ⟨1, "a@x.com", 10⟩ 0 emptyDB []).1 = .ok ⟨1, "a@x.com", 10⟩ ↔
       (emptyDB.sessions.find? (fun s => decide (s.userId = 1) && decide (0 < s.expiresAt))).isSome)) :=
  ⟨by decide, authenticate_liveness_store_only ⟨1, "a@x.com", 10⟩ 0 emptyDB []
    [("k", ⟨true, 5⟩)] (by decide)⟩

/-- C5 counterexample: caller 1 requesting expense 5 owned by user 2 is
answered 403 `Access denied` by the ownership middleware, while requesting
the nonexistent expense 9 is answered 404 `Expense not found` — the two
shapes differ in both status and message, so existence is revealed. -/
theorem ownership_nonleak_cex :
    getExpenseRoute 1 5 [⟨5, 2, false⟩] =
      .error ("Access denied. You can only access your own resources.", 403) ∧
    getExpenseRoute 1 9 [⟨5, 2, false⟩] = .error ("Expense not found", 404) ∧
    (("Access denied. You can only access your own resources.", 403) : String × Nat) ≠
      ("Expense not found", 404) := by
  decide

/-- C5 (amended): a request referencing an existing, non-soft-deleted
expense of another user is rejected 403 `Access denied. You can only
access your own resources.` by the ownership middleware, while a
nonexistent or soft-deleted expense id is answered 404 `Expense not
found` — the ForbiddenError branch does confirm resource existence to
non-owners. -/
theorem ownership_mismatch_forbidden (uid rid : Nat) (exps : List Expense) :
    (∀ e, exps.find? (fun x => decide (x.id = rid)) = some e → e.isDeleted = false →
      e.userId ≠ uid →
      getExpenseRoute uid rid exps =
        .error ("Access denied. You can only access your own resources.", 403)) ∧
    (exps.find? (fun x => decide (x.id = rid)) = none →
      getExpenseRoute uid rid exps = .error ("Expense not found", 404)) ∧
    (∀ e, exps.find? (fun x => decide (x.id = rid)) = some e → e.isDeleted = true →
      getExpenseRoute uid rid exps = .error ("Expense not found", 404)) := by
  refine ⟨?_, ?_, ?_⟩
  · intro e hf hd hne
    simp [getExpenseRoute, checkExpenseOwnership, hf, hd, hne]
  · intro hf
    simp [getExpenseRoute, checkExpenseOwnership, hf]
  · intro e hf hd
    simp [getExpenseRoute, checkExpenseOwnership, hf, hd]

/-- C5 amended witness at concrete inputs. -/
theorem ownership_mismatch_forbidden_witness :
    getExpenseRoute 1 5 [⟨5, 2, false⟩] =
      .error ("Access denied. You can only access your own resources.", 403) ∧
    getExpenseRoute 1 9 ([] : List Expense) = .error ("Expense not found", 404) ∧
    getExpenseRoute 1 5 [⟨5, 1, true⟩] = .error ("Expense not found", 404) :=
  ⟨(ownership_mismatch_forbidden 1 5 [⟨5, 2, false⟩]).1 ⟨5, 2, false⟩ (by decide) rfl
      (by decide),
   (ownership_mismatch_forbidden 1 9 []).2.1 (by decide),
   (ownership_mismatch_forbidden 1 5 [⟨5, 1, true⟩]).2.2 ⟨5, 1, true⟩ (by decide) rfl⟩

/-- C8 counterexample: with the session store unavailable at the lookup,
the Refresh flow answers the generic 401 `Invalid or expired refresh
token` — not a 5xx infrastructure error — although the same call with a
healthy store succeeds, so the failure is infrastructural, not a
credential failure. -/
theorem refresh_store_down_cex :
    refreshTokenController .lookupDown ⟨0, "a@x.com", 3⟩ 4
      ⟨[⟨0, "a@x.com", "bcrypt$p", "A"⟩], [⟨⟨0, "a@x.com", 3⟩, 0, 10⟩], 1⟩ =
      .error ("Invalid or expired refresh token", 401) ∧
    refreshTokenController .healthy ⟨0, "a@x.com", 3⟩ 4
      ⟨[⟨0, "a@x.com", "bcrypt$p", "A"⟩], [⟨⟨0, "a@x.com", 3⟩, 0, 10⟩], 1⟩ ≠
      .error ("Invalid or expired refresh token", 401) := by
  decide

/-- C8 (amended): whenever a store operation of the Refresh flow fails as
infrastructure (lookup or rotation transaction), the catch-all handler
collapses it to the same generic 401 `Invalid or expired refresh token`
answered for credential failures; no 5xx infrastructure error is ever
surfaced. -/
theorem refresh_store_down_generic (h : StoreHealth) (t : RTok) (now : Nat)
    (db : DB) (hh : h ≠ .healthy) :
    refreshTokenController h t now db = .error ("Invalid or expired refresh token", 401) := by
  cases h with
  | healthy => exact absurd rfl hh
  | lookupDown => simp [refreshTokenController, refreshUserTokenW]
  | txnDown =>
    by_cases hv : verifyRefreshToken t now
    · cases hf : db.sessions.find? (fun s => decide (s.token = t)) with
      | none => simp [refreshTokenController, refreshUserTokenW, hv, hf]
      | some row =>
        cases hu : db.users.find? (fun u => decide (u.id = row.userId)) with
        | none => simp [refreshTokenController, refreshUserTokenW, hv, hf, hu]
        | some u => simp [refreshTokenController, refreshUserTokenW, hv, hf, hu]
    · simp [refreshTokenController, refreshUserTokenW, hv]

/-- C8 amended witness at a concrete input. -/
theorem refresh_store_down_generic_witness :
    (StoreHealth.txnDown ≠ .healthy) ∧
    refreshTokenController .txnDown ⟨0, "a@x.com", 0⟩ 1 emptyDB =
      .error ("Invalid or expired refresh token", 401) :=
  ⟨by decide, refresh_store_down_generic .txnDown ⟨0, "a@x.com", 0⟩ 1 emptyDB (by decide)⟩

/-- C9: through the expense routes, a soft-deleted expense is absent for
get, update and delete alike: the ownership middleware, which runs before
each controller, answers 404 `Expense not found` whenever the row carries
`isDeleted = true`. -/
theorem soft_deleted_expense_absent (uid rid : Nat) (exps : List Expense)
    (e : Expense) (hf : exps.find? (fun x => decide (x.id = rid)) = some e)
    (hd : e.isDeleted = true) :
    getExpenseRoute uid rid exps = .error ("Expense not found", 404) ∧
    updateExpenseRoute uid rid exps = .error ("Expense not found", 404) ∧
    deleteExpenseRoute uid rid exps = .error ("Expense not found", 404) := by
  refine ⟨?_, ?_, ?_⟩ <;>
    simp [getExpenseRoute, updateExpenseRoute, deleteExpenseRoute,
      checkExpenseOwnership, hf, hd]

/-- C9 witness at a concrete input. -/
theorem soft_deleted_expense_absent_witness :
    getExpenseRoute 1 5 [⟨5, 1, true⟩] = .error ("Expense not found", 404) ∧
    updateExpenseRoute 1 5 [⟨5, 1, true⟩] = .error ("Expense not found", 404) ∧
    deleteExpenseRoute 1 5 [⟨5, 1, true⟩] = .error ("Expense not found", 404) :=
  soft_deleted_expense_absent 1 5 [⟨5, 1, true⟩] ⟨5, 1, true⟩ (by decide) rfl

/-- C7: a request bearing an access token that verifies (valid signature of
this system, unexpired) is accepted exactly while its user still has a
non-expired refresh token row; with no such row the middleware answers 401
`Session expired. Please login again.` although the token itself
verifies. -/
theorem access_token_requires_live_session (t : ATok) (now : Nat) (db : DB)
    (hexp : now < t.exp) :
    ((∃ s ∈ db.sessions, s.userId = t.userId ∧ now < s.expiresAt) →
      authenticateToken t now db = .ok t) ∧
    ((∀ s ∈ db.sessions, s.userId = t.userId → s.expiresAt ≤ now) →
      authenticateToken t now db = .error ("Session expired. Please login again.", 401)) := by
  have hv : verifyAccessTokenOk t now = true := by
    simp [verifyAccessTokenOk, hexp]
  constructor
  · rintro ⟨s, hs, hu, hlt⟩
    have hsome : (db.sessions.find? (fun s => decide (s.userId = t.userId) && decide (now < s.expiresAt))).isSome := by
      rw [List.find?_isSome]
      exact ⟨s, hs, by simp [hu, hlt]⟩
    rcases Option.isSome_iff_exists.mp hsome with ⟨s2, hs2⟩
    simp [authenticateToken, hv, hs2]
  · intro hall
    have hnone : db.sessions.find? (fun s => decide (s.userId = t.userId) && decide (now < s.expiresAt)) = none := by
      rw [List.find?_eq_none]
      intro s hs
      by_cases hu : s.userId = t.userId
      · simp [hu, Nat.not_lt.mpr (hall s hs hu)]
      · simp [hu]
    simp [authenticateToken, hv, hnone]

/-- C7 witness at concrete inputs, exercising both directions. -/
theorem access_token_requires_live_session_witness :
    ((0 : Nat) < 10 ∧
      ((∃ s ∈ ([⟨⟨1, "a@x.com", 0⟩, 1, 9⟩] : List Session), s.userId = 1 ∧ 0 < s.expiresAt) →
        authenticateToken ⟨1, "a@x.com", 10⟩ 0 ⟨[], [⟨⟨1, "a@x.com", 0⟩, 1, 9⟩], 0⟩ =
          .ok ⟨1, "a@x.com", 10⟩)) ∧
    ((∀ s ∈ ([] : List Session), s.userId = 1 → s.expiresAt ≤ 0) →
      authenticateToken ⟨1, "a@x.com", 10⟩ 0 emptyDB =
        .error ("Session expired. Please login again.", 401)) :=
  ⟨⟨by decide,
    (access_token_requires_live_session ⟨1, "a@x.com", 10⟩ 0
      ⟨[], [⟨⟨1, "a@x.com", 0⟩, 1, 9⟩], 0⟩ (by decide)).1⟩,
   (access_token_requires_live_session ⟨1, "a@x.com", 10⟩ 0 emptyDB (by decide)).2⟩

/-- C3: after any completed Login, exactly one Session row of the user
exists, whatever the prior store contents — the service deletes every row
of the user and then creates exactly one. Since every completed Login ends
this way, at most one row exists after the last call of any sequence. -/
theorem login_single_active_session (email pw : String) (now : Nat) (db : DB)
    (r : AuthResult) (db2 : DB)
    (h : loginUser email pw now db = .ok (r, db2)) :
    db2.sessions.countP (fun s => decide (s.userId = r.userId)) = 1 := by
  unfold loginUser at h
  cases hf : db.users.find? (fun u => decide (u.email = email)) with
  | none => rw [hf] at h; exact absurd h (by simp)
  | some u =>
    rw [hf] at h
    dsimp only at h
    by_cases hp : comparePassword pw u.password
    · rw [if_pos hp] at h
      have h2 := h
      simp only [Except.ok.injEq, Prod.mk.injEq] at h2
      obtain ⟨hr, hdb⟩ := h2
      subst hdb
      have hru : r.userId = u.id := by rw [← hr]
      simp only [generateRefreshToken]
      rw [List.countP_append]
      have hz : (db.sessions.filter (fun s => decide (s.userId ≠ u.id))).countP
          (fun s => decide (s.userId = r.userId)) = 0 := by
        rw [List.countP_eq_zero]
        intro s hs
        have := (List.mem_filter.mp hs).2
        simp only [decide_eq_true_eq] at this
        simp [hru, this]
      rw [hz]
      simp [hru]
    · rw [if_neg hp] at h; exact absurd h (by simp)

/-- C3 witness at a concrete input: a login on a store already holding two
stale rows of the user leaves exactly one row. -/
theorem login_single_active_session_witness :
    loginUser "a@x.com" "secret1" 50
        ⟨[⟨0, "a@x.com", hashPassword "secret1", "A"⟩],
         [⟨⟨0, "a@x.com", 1⟩, 0, 99⟩, ⟨⟨0, "a@x.com", 2⟩, 0, 98⟩], 1⟩ =
      .ok (⟨0, ⟨0, "a@x.com", 50 + accessTTLms⟩, ⟨0, "a@x.com", 50⟩⟩,
        ⟨[⟨0, "a@x.com", hashPassword "secret1", "A"⟩],
         [⟨⟨0, "a@x.com", 50⟩, 0, 50 + refreshTTLms⟩], 1⟩) ∧
    (⟨[⟨0, "a@x.com", hashPassword "secret1", "A"⟩],
      [⟨⟨0, "a@x.com", 50⟩, 0, 50 + refreshTTLms⟩], 1⟩ : DB).sessions.countP
        (fun s => decide (s.userId = (0 : Nat))) = 1 :=
  ⟨by decide,
   login_single_active_session "a@x.com" "secret1" 50
     ⟨[⟨0, "a@x.com", hashPassword "secret1", "A"⟩],
      [⟨⟨0, "a@x.com", 1⟩, 0, 99⟩, ⟨⟨0, "a@x.com", 2⟩, 0, 98⟩], 1⟩
     ⟨0, ⟨0, "a@x.com", 50 + accessTTLms⟩, ⟨0, "a@x.com", 50⟩⟩
     ⟨[⟨0, "a@x.com", hashPassword "secret1", "A"⟩],
      [⟨⟨0, "a@x.com", 50⟩, 0, 50 + refreshTTLms⟩], 1⟩ (by decide)⟩

/-- Overwriting a key makes it readable (helper for the limiter claims). -/
theorem rlLookup_rlSet (st : RLState) (key : String) (d : RLData) :
    rlLookup (rlSet st key d) key = some d := by
  unfold rlLookup rlSet
  rw [List.find?_append]
  have h1 : (st.filter (fun p => decide (p.1 ≠ key))).find? (fun p => decide (p.1 = key)) = none := by
    rw [List.find?_eq_none]
    intro p hp
    have h2 := (List.mem_filter.mp hp).2
    simp only [decide_eq_true_eq] at h2 ⊢
    exact h2
  rw [h1]
  simp

/-- One request while the window entry of the key stands at `⟨c, R⟩` and
the clock has not passed `R`: the counter increments in place, the reset
instant stays, and the request is rejected exactly when the new count
exceeds the maximum. -/
theorem rlStep_steady (o : RLOptions) (key : String) (now : Nat) (st : RLState)
    (c R : Nat) (hlk : rlLookup st key = some ⟨c, R⟩) (hle : now ≤ R) :
    rlStep o key now st =
      ((if o.max < c + 1 then .rejected (ceilSeconds (R - now))
        else .accepted (o.max - (c + 1)) (ceilSeconds (R - now))),
       rlSet st key ⟨c + 1, R⟩) := by
  unfold rlStep
  rw [hlk]
  simp [Nat.not_lt.mpr hle]
  split <;> rfl

/-- A request after the window of the key has elapsed: the entry resets to
a fresh window before counting. -/
theorem rlStep_reset (o : RLOptions) (key : String) (now : Nat) (st : RLState)
    (c R : Nat) (hlk : rlLookup st key = some ⟨c, R⟩) (hlt : R < now) :
    rlStep o key now st =
      ((if o.max < 1 then .rejected (ceilSeconds o.windowMs)
        else .accepted (o.max - 1) (ceilSeconds o.windowMs)),
       rlSet st key ⟨1, now + o.windowMs⟩) := by
  unfold rlStep
  rw [hlk]
  simp [hlt, Nat.add_sub_cancel_left]
  split <;> rfl

/-- Requests all landing before the reset instant `R` of a standing window
entry `⟨c, R⟩` produce exactly the outcomes of `rlExpected`, and leave the
entry at `⟨c + n, R⟩` — the counter counts every request, accepted or
rejected, and the reset instant is never extended. -/
theorem rlRun_steady (o : RLOptions) (key : String) (R : Nat) :
    ∀ (ts : List Nat) (st : RLState) (c : Nat),
    rlLookup st key = some ⟨c, R⟩ → (∀ t ∈ ts, t ≤ R) →
    (rlRun o key ts st).1 = rlExpected o.max c R ts ∧
    rlLookup (rlRun o key ts st).2 key = some ⟨c + ts.length, R⟩ := by
  intro ts
  induction ts with
  | nil => intro st c hlk _; simpa [rlRun, rlExpected] using hlk
  | cons t ts ih =>
    intro st c hlk hts
    have hstep := rlStep_steady o key t st c R hlk (hts t (by simp))
    have hlk2 : rlLookup (rlSet st key ⟨c + 1, R⟩) key = some ⟨c + 1, R⟩ :=
      rlLookup_rlSet st key ⟨c + 1, R⟩
    obtain ⟨h1, h2⟩ := ih (rlSet st key ⟨c + 1, R⟩) (c + 1) hlk2
      (fun u hu => hts u (by simp [hu]))
    constructor
    · show (rlRun o key (t :: ts) st).1 = _
      rw [rlRun, hstep]
      simp only [h1, rlExpected]
    · show rlLookup (rlRun o key (t :: ts) st).2 key = _
      rw [rlRun, hstep]
      simpa [Nat.add_comm, Nat.add_assoc, Nat.add_left_comm] using h2

/-- Index form of `rlExpected` (helper for the limiter claims). -/
theorem rlExpected_get? (M R : Nat) :
    ∀ (ts : List Nat) (c i : Nat),
    (rlExpected M c R ts).get? i = (ts.get? i).map
      (fun t => if M < c + i + 1 then RLOutcome.rejected (ceilSeconds (R - t))
        else .accepted (M - (c + i + 1)) (ceilSeconds (R - t))) := by
  intro ts
  induction ts with
  | nil => intro c i; simp [rlExpected]
  | cons t ts ih =>
    intro c i
    cases i with
    | zero => simp [rlExpected]
    | succ j =>
      simp only [rlExpected, List.get?_cons_succ]
      rw [ih (c + 1) j]
      simp only [show c + 1 + j + 1 = c + (j + 1) + 1 from by omega]

/-- Once the running count strictly exceeds the maximum, every outcome of
`rlExpected` is a rejection (helper for the limiter claims). -/
theorem rlExpected_all_rejected (M R : Nat) :
    ∀ (ts : List Nat) (c : Nat), M < c + 1 →
    ∀ x ∈ rlExpected M c R ts, ∃ n, x = RLOutcome.rejected n := by
  intro ts
  induction ts with
  | nil => intro c _ x hx; simp [rlExpected] at hx
  | cons t ts ih =>
    intro c hc x hx
    rw [rlExpected, if_pos hc] at hx
    rcases List.mem_cons.mp hx with h | h
    · exact ⟨_, h⟩
    · exact ih (c + 1) (by omega) x h

/-- C6: for a limiter `{windowMs := W, max := M}` and any key, take the
first request of a window at `t0` and `M` further requests at instants not
past the reset instant `t0 + W`. Every one of the first `M` requests is
accepted and carries the remaining quota `M - (i+1)`; the `(M+1)`-th
request is rejected with the seconds remaining until reset; and a request
after the reset instant is accepted again. -/
theorem rateLimiter_window_fairness (o : RLOptions) (key : String) (t0 : Nat)
    (ts : List Nat) (t2 : Nat) (hM : 0 < o.max) (hlen : ts.length = o.max)
    (hin : ∀ t ∈ ts, t ≤ t0 + o.windowMs) (h2 : t0 + o.windowMs < t2) :
    (∀ i t, i < o.max → (t0 :: ts).get? i = some t →
      (rlRun o key (t0 :: ts) []).1.get? i =
        some (.accepted (o.max - (i + 1)) (ceilSeconds (t0 + o.windowMs - t)))) ∧
    (∀ tl, ts.get? (o.max - 1) = some tl →
      (rlRun o key (t0 :: ts) []).1.get? o.max =
        some (.rejected (ceilSeconds (t0 + o.windowMs - tl)))) ∧
    (rlStep o key t2 (rlRun o key (t0 :: ts) []).2).1 =
      .accepted (o.max - 1) (ceilSeconds o.windowMs) := by
  have hstep0 : rlStep o key t0 [] =
      (.accepted (o.max - 1) (ceilSeconds (t0 + o.windowMs - t0)),
        rlSet [] key ⟨1, t0 + o.windowMs⟩) := by
    unfold rlStep
    have hnone : rlLookup [] key = none := rfl
    rw [hnone]
    have hm1 : ¬ o.max < 0 + 1 := by omega
    simp [hm1]
  obtain ⟨hres, hlkend⟩ := rlRun_steady o key (t0 + o.windowMs) ts
    (rlSet [] key ⟨1, t0 + o.windowMs⟩) 1
    (rlLookup_rlSet [] key ⟨1, t0 + o.windowMs⟩) hin
  have hlist : (rlRun o key (t0 :: ts) []).1 =
      .accepted (o.max - 1) (ceilSeconds (t0 + o.windowMs - t0)) ::
        rlExpected o.max 1 (t0 + o.windowMs) ts := by
    rw [rlRun, hstep0]
    simpa using hres
  have hstate : (rlRun o key (t0 :: ts) []).2 =
      (rlRun o key ts (rlSet [] key ⟨1, t0 + o.windowMs⟩)).2 := by
    rw [rlRun, hstep0]
  refine ⟨?_, ?_, ?_⟩
  · intro i t hi hget
    cases i with
    | zero =>
      simp only [List.get?_cons_zero, Option.some.injEq] at hget
      subst hget
      rw [hlist]
      rfl
    | succ j =>
      simp only [List.get?_cons_succ] at hget
      rw [hlist]
      simp only [List.get?_cons_succ]
      rw [rlExpected_get? o.max (t0 + o.windowMs) ts 1 j, hget]
      have h11 : 1 + j + 1 = j + 1 + 1 := by omega
      have hc : ¬ o.max < j + 1 + 1 := by omega
      simp [h11, hc]
  · intro tl hget
    rw [hlist]
    obtain ⟨m, hm⟩ : ∃ m, o.max = m + 1 := ⟨o.max - 1, by omega⟩
    rw [hm]
    rw [hm] at hget
    simp only [Nat.add_sub_cancel] at hget
    simp only [List.get?_cons_succ]
    rw [rlExpected_get? (m + 1) (t0 + o.windowMs) ts 1 m, hget]
    have hc : m + 1 < 1 + m + 1 := by omega
    simp only [hc, if_true]
    rfl
  · rw [hstate]
    rw [rlStep_reset o key t2 _ (1 + ts.length) (t0 + o.windowMs) hlkend h2]
    have : ¬ o.max < 1 := by omega
    simp [this]

/-- C6 witness: window 1000 ms, maximum 2, requests at 0, 10, 20, then at
2000. -/
theorem rateLimiter_window_fairness_witness :
    (0 : Nat) < 2 ∧
    ((∀ i t, i < 2 → ([0, 10, 20] : List Nat).get? i = some t →
        (rlRun ⟨1000, 2⟩ "k" [0, 10, 20] []).1.get? i =
          some (.accepted (2 - (i + 1)) (ceilSeconds (0 + 1000 - t)))) ∧
     (∀ tl, ([10, 20] : List Nat).get? (2 - 1) = some tl →
        (rlRun ⟨1000, 2⟩ "k" [0, 10, 20] []).1.get? 2 =
          some (.rejected (ceilSeconds (0 + 1000 - tl)))) ∧
     (rlStep ⟨1000, 2⟩ "k" 2000 (rlRun ⟨1000, 2⟩ "k" [0, 10, 20] []).2).1 =
       .accepted (2 - 1) (ceilSeconds 1000)) :=
  ⟨by decide, rateLimiter_window_fairness ⟨1000, 2⟩ "k" 0 [10, 20] 2000
    (by decide) (by decide) (by decide) (by decide)⟩

/-- C10: once a request of a key is rejected inside the current window,
every further request of the key before the reset instant is rejected as
well; the rejected requests still increment the per-key counter, and the
reset instant — fixed when the window was opened — is never moved by later
requests. -/
theorem rateLimiter_rejection_persists (o : RLOptions) (key : String)
    (st : RLState) (c R t : Nat) (ts : List Nat)
    (hlk : rlLookup st key = some ⟨c, R⟩) (ht : t ≤ R)
    (hrej : ∃ n, (rlStep o key t st).1 = .rejected n)
    (hts : ∀ u ∈ ts, u ≤ R) :
    rlLookup (rlStep o key t st).2 key = some ⟨c + 1, R⟩ ∧
    (∀ x ∈ (rlRun o key ts (rlStep o key t st).2).1, ∃ n, x = RLOutcome.rejected n) ∧
    rlLookup (rlRun o key ts (rlStep o key t st).2).2 key =
      some ⟨c + 1 + ts.length, R⟩ := by
  have hstep := rlStep_steady o key t st c R hlk ht
  have hMc : o.max < c + 1 := by
    by_contra hnot
    rcases hrej with ⟨n, hn⟩
    rw [hstep] at hn
    simp [hnot] at hn
  have hlk2 : rlLookup (rlStep o key t st).2 key = some ⟨c + 1, R⟩ := by
    rw [hstep]
    exact rlLookup_rlSet st key ⟨c + 1, R⟩
  obtain ⟨hres, hend⟩ := rlRun_steady o key R ts (rlStep o key t st).2 (c + 1) hlk2 hts
  refine ⟨hlk2, ?_, hend⟩
  intro x hx
  rw [hres] at hx
  exact rlExpected_all_rejected o.max R ts (c + 1) (by omega) x hx

/-- C10 witness: maximum 2, a standing window entry with count 2, a
rejected request at 50, then requests at 60 and 70. -/
theorem rateLimiter_rejection_persists_witness :
    rlLookup (rlStep ⟨1000, 2⟩ "k" 50 [("k", ⟨2, 100⟩)]).2 "k" = some ⟨2 + 1, 100⟩ ∧
    (∀ x ∈ (rlRun ⟨1000, 2⟩ "k" [60, 70] (rlStep ⟨1000, 2⟩ "k" 50 [("k", ⟨2, 100⟩)]).2).1,
      ∃ n, x = RLOutcome.rejected n) ∧
    rlLookup (rlRun ⟨1000, 2⟩ "k" [60, 70]
        (rlStep ⟨1000, 2⟩ "k" 50 [("k", ⟨2, 100⟩)]).2).2 "k" =
      some ⟨2 + 1 + ([60, 70] : List Nat).length, 100⟩ :=
  rateLimiter_rejection_persists ⟨1000, 2⟩ "k" [("k", ⟨2, 100⟩)] 2 100 50 [60, 70]
    (by decide) (by decide) ⟨1, by decide⟩ (by decide)

/-- Refresh of the one live session row succeeds and rotates the row to
the token re-signed at the refresh instant (helper, fully symbolic so that
elaboration never evaluates token equality on literal expressions; no
distinctness of instants is needed — at the issuance instant the rotation
re-issues the identical token and still succeeds). -/
theorem refreshUserToken_singleton_ok (t : RTok) (u : User) (exp now nu : Nat)
    (hv : now < t.exp) (hexp : ¬ exp < now) :
    refreshUserToken t now ⟨[u], [⟨t, u.id, exp⟩], nu⟩ =
      .ok (⟨u.id, ⟨u.id, u.email, now + accessTTLms⟩, ⟨u.id, u.email, now⟩⟩,
        ⟨[u], [⟨⟨u.id, u.email, now⟩, u.id, now + refreshTTLms⟩], nu⟩) := by
  have hvb : verifyRefreshToken t now = true := by
    simp [verifyRefreshToken, hv]
  unfold refreshUserToken refreshUserTokenW
  rw [if_neg (by simp [hvb])]
  rw [if_neg (by simp)]
  rw [List.find?_cons_of_pos _ (by simp)]
  dsimp only
  rw [if_neg hexp]
  rw [List.find?_cons_of_pos _ (by simp)]
  dsimp only
  dsimp only [generateRefreshToken, generateAccessToken]
  rw [if_neg (by simp)]
  rw [if_pos (by simp)]
  rw [show List.filter (fun (s : Session) => decide (s.token ≠ t))
      ([⟨t, u.id, exp⟩] : List Session) = [] from by simp]
  rfl

/-- Refresh with a token no session row carries fails with the generic
error, whatever the instant (helper). -/
theorem refreshUserToken_stale (t : RTok) (now : Nat) (db : DB)
    (h : ∀ s ∈ db.sessions, s.token ≠ t) :
    refreshUserToken t now db = .error "Invalid or expired refresh token" := by
  unfold refreshUserToken refreshUserTokenW
  by_cases hv : verifyRefreshToken t now
  · rw [if_neg (by simp [hv])]
    rw [if_neg (by simp)]
    rw [List.find?_eq_none.mpr (fun s hs => by simp [h s hs])]
  · rw [if_pos (by simpa using hv)]

/-- C2 counterexample: jwt.sign is deterministic per (claims, clock), so
when the refresh lands at the same instant as the login, the rotation
re-signs the identical token. User A registers at 0 and logs in at 1
obtaining `T0`; `Refresh(T0)` at instant 1 succeeds but returns `T0`
itself (not a new distinct token) and leaves the store unchanged, and the
supposedly spent `T0` refreshes again — successfully — at instant 2,
contradicting both the distinctness and the single-use conjuncts. -/
theorem refresh_rotation_same_instant_cex :
    registerUser "a@x.com" "secret1" "A" 0 emptyDB =
      .ok (⟨0, ⟨0, "a@x.com", 0 + accessTTLms⟩, ⟨0, "a@x.com", 0⟩⟩,
        ⟨[⟨0, "a@x.com", hashPassword "secret1", "A"⟩],
         [⟨⟨0, "a@x.com", 0⟩, 0, 0 + refreshTTLms⟩], 1⟩) ∧
    loginUser "a@x.com" "secret1" 1
        ⟨[⟨0, "a@x.com", hashPassword "secret1", "A"⟩],
         [⟨⟨0, "a@x.com", 0⟩, 0, 0 + refreshTTLms⟩], 1⟩ =
      .ok (⟨0, ⟨0, "a@x.com", 1 + accessTTLms⟩, ⟨0, "a@x.com", 1⟩⟩,
        ⟨[⟨0, "a@x.com", hashPassword "secret1", "A"⟩],
         [⟨⟨0, "a@x.com", 1⟩, 0, 1 + refreshTTLms⟩], 1⟩) ∧
    refreshUserToken ⟨0, "a@x.com", 1⟩ 1
        ⟨[⟨0, "a@x.com", hashPassword "secret1", "A"⟩],
         [⟨⟨0, "a@x.com", 1⟩, 0, 1 + refreshTTLms⟩], 1⟩ =
      .ok (⟨0, ⟨0, "a@x.com", 1 + accessTTLms⟩, ⟨0, "a@x.com", 1⟩⟩,
        ⟨[⟨0, "a@x.com", hashPassword "secret1", "A"⟩],
         [⟨⟨0, "a@x.com", 1⟩, 0, 1 + refreshTTLms⟩], 1⟩) ∧
    refreshUserToken ⟨0, "a@x.com", 1⟩ 2
        ⟨[⟨0, "a@x.com", hashPassword "secret1", "A"⟩],
         [⟨⟨0, "a@x.com", 1⟩, 0, 1 + refreshTTLms⟩], 1⟩ =
      .ok (⟨0, ⟨0, "a@x.com", 2 + accessTTLms⟩, ⟨0, "a@x.com", 2⟩⟩,
        ⟨[⟨0, "a@x.com", hashPassword "secret1", "A"⟩],
         [⟨⟨0, "a@x.com", 2⟩, 0, 2 + refreshTTLms⟩], 1⟩) := by
  refine ⟨rfl, ?_, by decide, by decide⟩
  decide

/-- C2 (amended): from a fresh store, any user registering and then
logging in obtains a refresh token `T0`; provided the refresh lands at a
strictly later instant than the login — so that the deterministically
re-signed token differs from `T0` — `Refresh(T0)` before expiry succeeds
returning a token `T1` distinct from `T0`; `Refresh(T0)` then fails with
the generic refresh error at any later instant, and after Logout
`Refresh(T1)` fails likewise. (At the same instant the code re-issues the
identical token and `T0` stays refreshable; see the counterexample.) -/
theorem refresh_rotation_scenario (email pw nm : String) (t1 t2 t3 t4 t5 : Nat)
    (h23 : t2 < t3) (h3 : t3 < t2 + refreshTTLms) :
    ∃ r1 db1, registerUser email pw nm t1 emptyDB = .ok (r1, db1) ∧
    ∃ r2 db2, loginUser email pw t2 db1 = .ok (r2, db2) ∧
    ∃ r3 db3, refreshUserToken r2.refreshToken t3 db2 = .ok (r3, db3) ∧
      r3.refreshToken ≠ r2.refreshToken ∧
      refreshUserToken r2.refreshToken t4 db3 = .error "Invalid or expired refresh token" ∧
      refreshUserToken r3.refreshToken t5 (logoutUser r2.userId db3) =
        .error "Invalid or expired refresh token" := by
  refine ⟨⟨0, ⟨0, email, t1 + accessTTLms⟩, ⟨0, email, t1⟩⟩,
    ⟨[⟨0, email, hashPassword pw, nm⟩],
      [⟨⟨0, email, t1⟩, 0, t1 + refreshTTLms⟩], 1⟩, ?_,
    ⟨0, ⟨0, email, t2 + accessTTLms⟩, ⟨0, email, t2⟩⟩,
    ⟨[⟨0, email, hashPassword pw, nm⟩],
      [⟨⟨0, email, t2⟩, 0, t2 + refreshTTLms⟩], 1⟩, ?_,
    ⟨0, ⟨0, email, t3 + accessTTLms⟩, ⟨0, email, t3⟩⟩,
    ⟨[⟨0, email, hashPassword pw, nm⟩],
      [⟨⟨0, email, t3⟩, 0, t3 + refreshTTLms⟩], 1⟩, ?_, ?_, ?_, ?_⟩
  · rfl
  · unfold loginUser
    rw [List.find?_cons_of_pos _ (by simp)]
    dsimp only
    rw [if_pos (by simp [comparePassword])]
    rfl
  · exact refreshUserToken_singleton_ok ⟨0, email, t2⟩
      ⟨0, email, hashPassword pw, nm⟩ (t2 + refreshTTLms) t3 1 h3 (by omega)
  · show (⟨0, email, t3⟩ : RTok) ≠ ⟨0, email, t2⟩
    intro hc
    injection hc with hA hB hC
    omega
  · exact refreshUserToken_stale ⟨0, email, t2⟩ t4
      ⟨[⟨0, email, hashPassword pw, nm⟩],
        [⟨⟨0, email, t3⟩, 0, t3 + refreshTTLms⟩], 1⟩
      (by
        intro s hs
        simp only [List.mem_singleton] at hs
        subst hs
        show (⟨0, email, t3⟩ : RTok) ≠ ⟨0, email, t2⟩
        intro hc
        injection hc with hA hB hC
        omega)
  · exact refreshUserToken_stale ⟨0, email, t3⟩ t5
      (logoutUser 0
        ⟨[⟨0, email, hashPassword pw, nm⟩],
          [⟨⟨0, email, t3⟩, 0, t3 + refreshTTLms⟩], 1⟩)
      (by intro s hs; simp [logoutUser] at hs)

/-- C2 amended witness at concrete inputs. -/
theorem refresh_rotation_scenario_witness :
    (1 : Nat) < 2 ∧ (2 : Nat) < 1 + refreshTTLms ∧
    (∃ r1 db1, registerUser "a@x.com" "secret1" "A" 0 emptyDB = .ok (r1, db1) ∧
     ∃ r2 db2, loginUser "a@x.com" "secret1" 1 db1 = .ok (r2, db2) ∧
     ∃ r3 db3, refreshUserToken r2.refreshToken 2 db2 = .ok (r3, db3) ∧
       r3.refreshToken ≠ r2.refreshToken ∧
       refreshUserToken r2.refreshToken 3 db3 = .error "Invalid or expired refresh token" ∧
       refreshUserToken r3.refreshToken 4 (logoutUser r2.userId db3) =
         .error "Invalid or expired refresh token") :=
  ⟨by decide, by decide,
   refresh_rotation_scenario "a@x.com" "secret1" "A" 0 1 2 3 4 (by decide) (by decide)⟩

/-- C1 counterexample: jwt.sign is deterministic per (claims, clock), so a
rotation performed at the very instant the token was signed re-inserts the
identical token string. With the valid token issued at instant 5 and both
concurrent Refresh calls running at instant 5, the interleaving that
overlaps the two lookups lets the second transaction find the re-inserted
row again: both calls succeed, refuting exactly-one-success. -/
theorem refresh_concurrent_same_instant_cex :
    rcOutcomes ⟨7, "a@x.com", 5⟩ 5 [true, false, true, false]
        ⟨[⟨7, "a@x.com", "h", "A"⟩], [⟨⟨7, "a@x.com", 5⟩, 7, 100⟩], 8⟩ =
      (some (.ok ⟨7, "a@x.com", 5⟩), some (.ok ⟨7, "a@x.com", 5⟩)) := by
  decide

/-- C1 (amended): a user holds the valid refresh token `⟨tuid, temail,
tiat⟩` (one session row carries it, unexpired both as a JWT and as a row;
the rest of the store carries other tokens), and the rotation instant
differs from the issuance instant `tiat` — so the deterministically
re-signed token differs from the presented one. Then for every schedule
interleaving the two atomic store steps of two concurrent Refresh calls
presenting that token, exactly one call succeeds — with a new token
distinct from the input — and the other fails with the generic refresh
error: the transactional delete-then-insert is the serialization point,
the loser either missing the row at lookup or finding its delete hit zero
rows. (At `now = tiat` both calls can succeed; see the counterexample.) -/
theorem refresh_concurrent_rotation_exclusive
    (sched : List Bool) (tuid tiat uid rexp now nUid : Nat) (temail : String)
    (u : User) (users : List User) (rest : List Session)
    (hlen : sched.length = 4) (hcnt : sched.count true = 2)
    (hjwt : now < tiat + refreshTTLms) (hrow : ¬ rexp < now) (hdiff : now ≠ tiat)
    (huser : users.find? (fun x => decide (x.id = uid)) = some u)
    (hrest1 : ∀ s ∈ rest, s.token ≠ (⟨tuid, temail, tiat⟩ : RTok)) :
    (rcOutcomes ⟨tuid, temail, tiat⟩ now sched
        ⟨users, ⟨⟨tuid, temail, tiat⟩, uid, rexp⟩ :: rest, nUid⟩ =
        (some (.ok ⟨u.id, u.email, now⟩),
         some (.failed "Invalid or expired refresh token")) ∨
     rcOutcomes ⟨tuid, temail, tiat⟩ now sched
        ⟨users, ⟨⟨tuid, temail, tiat⟩, uid, rexp⟩ :: rest, nUid⟩ =
        (some (.failed "Invalid or expired refresh token"),
         some (.ok ⟨u.id, u.email, now⟩))) ∧
    (⟨u.id, u.email, now⟩ : RTok) ≠ ⟨tuid, temail, tiat⟩ := by
  have hne : (⟨u.id, u.email, now⟩ : RTok) ≠ ⟨tuid, temail, tiat⟩ := by
    intro hc
    injection hc with h1 h2 h3
    exact hdiff h3
  have hvb : verifyRefreshToken ⟨tuid, temail, tiat⟩ now = true := by
    simp [verifyRefreshToken, RTok.exp, hjwt]
  have hfind0 : (List.find? (fun s => decide (s.token = (⟨tuid, temail, tiat⟩ : RTok)))
      ((⟨⟨tuid, temail, tiat⟩, uid, rexp⟩ : Session) :: rest)) =
      some ⟨⟨tuid, temail, tiat⟩, uid, rexp⟩ :=
    List.find?_cons_of_pos _ (by simp)
  have hfilter : (List.filter (fun s => decide (s.token ≠ (⟨tuid, temail, tiat⟩ : RTok)))
      ((⟨⟨tuid, temail, tiat⟩, uid, rexp⟩ : Session) :: rest)) = rest := by
    rw [List.filter_cons]
    rw [if_neg (by simp)]
    exact List.filter_eq_self.mpr (fun s hs => by simp [hrest1 s hs])
  have hfind1 : (List.find? (fun s => decide (s.token = (⟨tuid, temail, tiat⟩ : RTok)))
      (rest ++ [⟨⟨u.id, u.email, now⟩, u.id, now + refreshTTLms⟩])) = none := by
    rw [List.find?_eq_none]
    intro s hs
    rcases List.mem_append.mp hs with h | h
    · simp [hrest1 s h]
    · simp only [List.mem_singleton] at h
      subst h
      simpa using hne
  have hany1 : (List.any (rest ++ [⟨⟨u.id, u.email, now⟩, u.id, now + refreshTTLms⟩])
      (fun s => decide (s.token = (⟨tuid, temail, tiat⟩ : RTok)))) = false := by
    rw [List.any_eq_false]
    intro s hs
    rcases List.mem_append.mp hs with h | h
    · simp [hrest1 s h]
    · simp only [List.mem_singleton] at h
      subst h
      simpa using hne
  have stepA0 : rcStep ⟨tuid, temail, tiat⟩ now
      ⟨users, ⟨⟨tuid, temail, tiat⟩, uid, rexp⟩ :: rest, nUid⟩ rcInit =
      (⟨users, ⟨⟨tuid, temail, tiat⟩, uid, rexp⟩ :: rest, nUid⟩,
       ⟨1, some ⟨⟨tuid, temail, tiat⟩, uid, rexp⟩, none⟩) := by
    unfold rcStep rcInit
    dsimp only
    rw [if_neg (by simp [hvb]), hfind0]
  have stepTxn : rcStep ⟨tuid, temail, tiat⟩ now
      ⟨users, ⟨⟨tuid, temail, tiat⟩, uid, rexp⟩ :: rest, nUid⟩
      ⟨1, some ⟨⟨tuid, temail, tiat⟩, uid, rexp⟩, none⟩ =
      (⟨users, rest ++ [⟨⟨u.id, u.email, now⟩, u.id, now + refreshTTLms⟩], nUid⟩,
       ⟨2, some ⟨⟨tuid, temail, tiat⟩, uid, rexp⟩, some (.ok ⟨u.id, u.email, now⟩)⟩) := by
    unfold rcStep
    dsimp only
    rw [if_neg hrow, huser]
    dsimp only [generateRefreshToken]
    rw [if_pos (by simp), hfilter]
  have stepFail1 : rcStep ⟨tuid, temail, tiat⟩ now
      ⟨users, rest ++ [⟨⟨u.id, u.email, now⟩, u.id, now + refreshTTLms⟩], nUid⟩ rcInit =
      (⟨users, rest ++ [⟨⟨u.id, u.email, now⟩, u.id, now + refreshTTLms⟩], nUid⟩,
       ⟨1, none, none⟩) := by
    unfold rcStep rcInit
    dsimp only
    rw [if_neg (by simp [hvb]), hfind1]
  have stepFail2 : ∀ db : DB, rcStep ⟨tuid, temail, tiat⟩ now db ⟨1, none, none⟩ =
      (db, ⟨2, none, some (.failed "Invalid or expired refresh token")⟩) := fun db => rfl
  have stepTxn2 : rcStep ⟨tuid, temail, tiat⟩ now
      ⟨users, rest ++ [⟨⟨u.id, u.email, now⟩, u.id, now + refreshTTLms⟩], nUid⟩
      ⟨1, some ⟨⟨tuid, temail, tiat⟩, uid, rexp⟩, none⟩ =
      (⟨users, rest ++ [⟨⟨u.id, u.email, now⟩, u.id, now + refreshTTLms⟩], nUid⟩,
       ⟨2, some ⟨⟨tuid, temail, tiat⟩, uid, rexp⟩,
        some (.failed "Invalid or expired refresh token")⟩) := by
    unfold rcStep
    dsimp only
    rw [if_neg hrow, huser]
    dsimp only
    rw [if_neg (by simp [hany1])]
  rcases sched with _ | ⟨a, _ | ⟨b, _ | ⟨c, _ | ⟨d, _ | ⟨e, tl⟩⟩⟩⟩⟩ <;>
    simp only [List.length_nil, List.length_cons] at hlen <;> try omega
  cases a <;> cases b <;> cases c <;> cases d <;>
    first
    | (refine ⟨?_, hne⟩
       unfold rcOutcomes
       simp [rcRun, stepA0, stepTxn, stepFail1, stepFail2, stepTxn2]
       done)
    | simp [List.count_cons] at hcnt

/-- C1 amended witness: one concrete alternating schedule on a one-row
store, refreshing at instant 5 a token issued at instant 0. -/
theorem refresh_concurrent_rotation_exclusive_witness :
    (rcOutcomes ⟨7, "a@x.com", 0⟩ 5 [true, false, true, false]
        ⟨[⟨7, "a@x.com", "h", "A"⟩], [⟨⟨7, "a@x.com", 0⟩, 7, 100⟩], 8⟩ =
          (some (.ok ⟨7, "a@x.com", 5⟩),
           some (.failed "Invalid or expired refresh token")) ∨
     rcOutcomes ⟨7, "a@x.com", 0⟩ 5 [true, false, true, false]
        ⟨[⟨7, "a@x.com", "h", "A"⟩], [⟨⟨7, "a@x.com", 0⟩, 7, 100⟩], 8⟩ =
          (some (.failed "Invalid or expired refresh token"),
           some (.ok ⟨7, "a@x.com", 5⟩))) ∧
    (⟨7, "a@x.com", 5⟩ : RTok) ≠ ⟨7, "a@x.com", 0⟩ :=
  refresh_concurrent_rotation_exclusive [true, false, true, false] 7 0 7 100 5 8
    "a@x.com" ⟨7, "a@x.com", "h", "A"⟩ [⟨7, "a@x.com", "h", "A"⟩] [] (by decide)
    (by decide) (by decide) (by decide) (by decide) (by decide) (by simp)

end Budget
